import Mathlib

/-!
Verification development for the fastapi-task-manager provisioning pipeline
(`src/main.py`).  The Python pipeline is shallowly embedded: pure text
manipulation becomes functions on `List Char`, the file system becomes an
association list, and every external effect (LLM provider, HTTP layer,
content-type table) becomes an explicit function parameter.  Machine-level
side effects (actual sockets, actual disk writes) are out of scope; the
embedded definitions compute exactly the data the Python code would send,
write or return.
-/

/-! ## Python-style string primitives

The pipeline manipulates text with Python `str` methods (`strip`, `lstrip`,
`lower`, `endswith`, `in`).  These are embedded on `List Char`.  The Python
originals operate on full Unicode; every string the pipeline feeds them is
ASCII, and the embeddings agree with Python on ASCII input. -/

/-- Character class of Python `str.strip()` default whitespace (ASCII part). -/
def pyWs (c : Char) : Bool :=
  c = ' ' ∨ c = '\t' ∨ c = '\n' ∨ c = '\r' ∨ c = '\x0b' ∨ c = '\x0c'

/-- The backquote character, written numerically. -/
def btick : Char := Char.ofNat 96

/-- The opening curly bracket character, written numerically. -/
def lbrace : Char := Char.ofNat 123

/-- The closing curly bracket character, written numerically. -/
def rbrace : Char := Char.ofNat 125

/-- Drop the longest suffix whose characters satisfy `p` (helper for the
two-sided Python `strip`). -/
def dropEndWhile (p : Char → Bool) (l : List Char) : List Char :=
  (l.reverse.dropWhile p).reverse

/-- Python `s.strip(chars)` / `s.strip()`: drop characters satisfying `p`
from both ends. -/
def pyStrip (p : Char → Bool) (l : List Char) : List Char :=
  dropEndWhile p (l.dropWhile p)

/-- Python `s.lstrip(chars)`: drop the longest prefix of characters
satisfying `p`.  Note this strips a character SET, not a literal prefix. -/
def pyLstrip (p : Char → Bool) (l : List Char) : List Char :=
  l.dropWhile p

/-- Python `s.lower()` (ASCII case folding, which is all the pipeline needs). -/
def pyLower (l : List Char) : List Char :=
  l.map Char.toLower

/-- Python `needle in haystack` substring test. -/
def strContains (haystack needle : List Char) : Bool :=
  haystack.tails.any (fun suffix => needle.isPrefixOf suffix)

/-- Python `s.endswith(t)`. -/
def strEndsWith (s t : List Char) : Bool :=
  t.isSuffixOf s

/-! ## SecretScanner (`contains_secret`, main.py lines 112-119)

`SECRET_PATTERNS` holds three regular expressions; `contains_secret` is
`any(re.search(pat, text) for pat in SECRET_PATTERNS)`.  `re.search`
succeeds iff the pattern matches at some position, so each pattern is
embedded as a decidable "matches at the head of this suffix" test applied
to every suffix.  The optional pieces of the first pattern (`[_-]?`,
`['\x22]?`) are each followed by a character that cannot start them, so the
greedy deterministic reading below is equivalent to full backtracking. -/

/-- Regex class `[A-Za-z0-9]`. -/
def isAlnumAscii (c : Char) : Bool :=
  ('A' ≤ c ∧ c ≤ 'Z') ∨ ('a' ≤ c ∧ c ≤ 'z') ∨ ('0' ≤ c ∧ c ≤ '9')

/-- Regex class `[A-Za-z0-9_\-]` from the api-key pattern. -/
def isTokenChar (c : Char) : Bool :=
  isAlnumAscii c ∨ c = '_' ∨ c = '-'

/-- Regex class `\s` (ASCII part, matching Python on ASCII input). -/
def isReWs (c : Char) : Bool :=
  c = ' ' ∨ c = '\t' ∨ c = '\n' ∨ c = '\r' ∨ c = '\x0b' ∨ c = '\x0c'

/-- Pattern `ghp_[A-Za-z0-9]{36,}` matched at the start of `cs`. -/
def matchGhpAt (cs : List Char) : Bool :=
  match cs with
  | 'g' :: 'h' :: 'p' :: '_' :: rest => 36 ≤ (rest.takeWhile isAlnumAscii).length
  | _ => false

/-- Pattern `sk-[A-Za-z0-9]{32,}` matched at the start of `cs`. -/
def matchSkAt (cs : List Char) : Bool :=
  match cs with
  | 's' :: 'k' :: '-' :: rest => 32 ≤ (rest.takeWhile isAlnumAscii).length
  | _ => false

/-- Case-insensitive literal match: consume `lit` (lower-case) from `cs`. -/
def ciDrop (lit : List Char) (cs : List Char) : Option (List Char) :=
  match lit, cs with
  | [], rest => some rest
  | _ :: _, [] => none
  | l :: ls, c :: rest => if c.toLower = l then ciDrop ls rest else none

/-- Pattern `(?i)api[_-]?key\s*=\s*['\x22]?[A-Za-z0-9_\-]{16,}['\x22]?`
matched at the start of `cs`. -/
def matchApiKeyAt (cs : List Char) : Bool :=
  match ciDrop ("api".data) cs with
  | none => false
  | some r1 =>
    let r2 := match r1 with
      | c :: rest => if c = '_' ∨ c = '-' then rest else r1
      | [] => r1
    match ciDrop ("key".data) r2 with
    | none => false
    | some r3 =>
      match r3.dropWhile isReWs with
      | '=' :: r4 =>
        let r5 := r4.dropWhile isReWs
        let r6 := match r5 with
          | c :: rest => if c = Char.ofNat 39 ∨ c = '"' then rest else r5
          | [] => r5
        16 ≤ (r6.takeWhile isTokenChar).length
      | _ => false

/-- Embedding of `contains_secret(text)`: some suffix of the text matches
one of the three secret patterns at its head. -/
def contains_secret (text : List Char) : Bool :=
  text.tails.any (fun suffix => matchApiKeyAt suffix ∨ matchGhpAt suffix ∨ matchSkAt suffix)

example : contains_secret (("ghp_" ++ String.mk (List.replicate 36 'A')).data) = true := by decide
example : contains_secret ("hello world".data) = false := by decide
example : contains_secret ("api_key=\"A1B2C3D4E5F6G7H8I9J0\"".data) = true := by decide

/-! ## Byte-level codecs

`push_repo_from_disk` reads candidate files either as UTF-8 text (mode
`"r"`, where a `UnicodeDecodeError` causes a skip) or as raw bytes (mode
`"rb"`), and ships the chosen representation base64-encoded.  Bytes are
embedded as `Nat` values `< 256`. -/

/-- Strict UTF-8 decoding of a byte list, as performed by Python
`open(..., encoding="utf-8")`: rejects stray or missing continuation
bytes, overlong encodings, surrogates and values above `0x10FFFF`.
Returns `none` exactly when Python raises `UnicodeDecodeError`. -/
def utf8Decode : List Nat → Option (List Char)
  | [] => some []
  | b :: rest =>
    if b < 0x80 then
      (utf8Decode rest).map (fun l => Char.ofNat b :: l)
    else if b < 0xC2 then
      none
    else if b < 0xE0 then
      match rest with
      | b2 :: r2 =>
        if 0x80 ≤ b2 ∧ b2 < 0xC0 then
          (utf8Decode r2).map (fun l => Char.ofNat ((b - 0xC0) * 0x40 + (b2 - 0x80)) :: l)
        else none
      | _ => none
    else if b < 0xF0 then
      match rest with
      | b2 :: b3 :: r3 =>
        if (0x80 ≤ b2 ∧ b2 < 0xC0) ∧ (0x80 ≤ b3 ∧ b3 < 0xC0) then
          let n := (b - 0xE0) * 0x1000 + (b2 - 0x80) * 0x40 + (b3 - 0x80)
          if 0x800 ≤ n ∧ (n < 0xD800 ∨ 0xDFFF < n) then
            (utf8Decode r3).map (fun l => Char.ofNat n :: l)
          else none
        else none
      | _ => none
    else if b < 0xF5 then
      match rest with
      | b2 :: b3 :: b4 :: r4 =>
        if (0x80 ≤ b2 ∧ b2 < 0xC0) ∧ (0x80 ≤ b3 ∧ b3 < 0xC0) ∧ (0x80 ≤ b4 ∧ b4 < 0xC0) then
          let n := (b - 0xF0) * 0x40000 + (b2 - 0x80) * 0x1000 + (b3 - 0x80) * 0x40 + (b4 - 0x80)
          if 0x10000 ≤ n ∧ n ≤ 0x10FFFF then
            (utf8Decode r4).map (fun l => Char.ofNat n :: l)
          else none
        else none
      | _ => none
    else none

/-- UTF-8 encoding of one character (used by `content.encode("utf-8")`). -/
def utf8EncodeChar (c : Char) : List Nat :=
  let n := c.toNat
  if n < 0x80 then [n]
  else if n < 0x800 then [0xC0 + n / 0x40, 0x80 + n % 0x40]
  else if n < 0x10000 then
    [0xE0 + n / 0x1000, 0x80 + n / 0x40 % 0x40, 0x80 + n % 0x40]
  else
    [0xF0 + n / 0x40000, 0x80 + n / 0x1000 % 0x40, 0x80 + n / 0x40 % 0x40, 0x80 + n % 0x40]

/-- UTF-8 encoding of a character list (`str.encode("utf-8")`). -/
def utf8Encode (s : List Char) : List Nat :=
  (s.map utf8EncodeChar).flatten

/-- Alphabet lookup for base64 (RFC 4648, as used by `base64.b64encode`). -/
def b64Char (n : Nat) : Char :=
  (("ABCDEFGHIJKLMNOPQRSTUVWXYZabcdefghijklmnopqrstuvwxyz0123456789+/".data).getD n 'A')

/-- Embedding of `base64.b64encode(...).decode("utf-8")` on a byte list. -/
def b64encode : List Nat → List Char
  | [] => []
  | [a] => [b64Char (a / 4), b64Char (a % 4 * 16), '=', '=']
  | [a, b] => [b64Char (a / 4), b64Char (a % 4 * 16 + b / 16), b64Char (b % 16 * 4), '=']
  | a :: b :: c :: rest =>
    b64Char (a / 4) :: b64Char (a % 4 * 16 + b / 16) :: b64Char (b % 16 * 4 + c / 64) ::
      b64Char (c % 64) :: b64encode rest

example : utf8Decode (("hi".data).map Char.toNat) = some ("hi".data) := by decide
example : b64encode [77, 97, 110] = ("TWFu".data) := by decide
example : b64encode [77, 97] = ("TWE=".data) := by decide

/-! ## RepoPublisher: per-file push pipeline (`push_repo_from_disk`, main.py lines 121-150)

The walk enumerates files; for each one the code computes a relative path
`rel` and decides between three skips and an upload.  The content-type
oracle `mimetypes.guess_type` is a pure extension-keyed table lookup in the
Python standard library; it enters the embedding as an explicit parameter
`guess`, and `is_binary = mime and not mime.startswith("text")` is
reproduced on its result.  A file is embedded as its walk-relative path
plus raw bytes. -/

structure PushFile where
  rel : List Char
  bytes : List Nat

/-- Outcome of `push_repo_from_disk` for one walked file: one of the three
logged skips, or an HTTP `PUT` upload carrying the base64 payload. -/
inductive PushAction where
  | skipSensitiveName
  | skipNonUtf8
  | skipSecret
  | upload (payload : List Char) (binary : Bool)

/-- Sensitive-name filter: `rel.lower().endswith(".env") or "token" in rel.lower()`. -/
def sensitiveName (rel : List Char) : Bool :=
  strEndsWith (pyLower rel) (".env".data) ∨ strContains (pyLower rel) ("token".data)

/-- Truthiness-plus-startswith test `mime and not mime.startswith("text")`
on the guessed content type. -/
def isBinaryMime (mime : Option (List Char)) : Bool :=
  match mime with
  | none => false
  | some m => m ≠ [] ∧ ¬ ("text".data).isPrefixOf m

/-- Per-file decision of `push_repo_from_disk` (main.py lines 126-150),
parametric in the content-type table `guess`. -/
def pushFileAction (guess : List Char → Option (List Char)) (f : PushFile) : PushAction :=
  if sensitiveName f.rel then
    .skipSensitiveName
  else if isBinaryMime (guess f.rel) then
    .upload (b64encode f.bytes) true
  else
    match utf8Decode f.bytes with
    | none => .skipNonUtf8
    | some content =>
      if contains_secret content then .skipSecret
      else .upload (b64encode (utf8Encode content)) false

/-- Embedding of the whole `push_repo_from_disk` loop: the action taken
for every walked file, in walk order. -/
def push_repo_from_disk (guess : List Char → Option (List Char)) (files : List PushFile) :
    List (List Char × PushAction) :=
  files.map (fun f => (f.rel, pushFileAction guess f))

/-- The upload requests actually issued by `push_repo_from_disk` (the
`http("PUT", ...)` calls), in order. -/
def pushUploads (guess : List Char → Option (List Char)) (files : List PushFile) :
    List (List Char × List Char) :=
  (push_repo_from_disk guess files).filterMap
    (fun ra => match ra.2 with
      | .upload payload _ => some (ra.1, payload)
      | _ => none)

/-! ## FileMaterializer (`write_files`, main.py lines 91-96)

`write_files` normalizes each entry's path with `f["path"].lstrip("./")`
and writes the content at that path under the current working directory.
The working tree is embedded as an association list from paths to
contents in which the most recent write shadows older ones. -/

structure FileEntry where
  path : List Char
  content : List Char

/-- Destination path computed by `write_files`: Python
`path.lstrip("./")`, i.e. the longest leading run of `.` and `/`
characters is removed. -/
def destPath (p : List Char) : List Char :=
  pyLstrip (fun c => c = '.' ∨ c = '/') p

/-- Working tree: path-keyed association list, newest entry first. -/
abbrev FS := List (List Char × List Char)

/-- Content stored at path `p` (newest write wins). -/
def fsRead : FS → List Char → Option (List Char)
  | [], _ => none
  | e :: rest, p => if e.1 = p then some e.2 else fsRead rest p

/-- Overwrite path `p` with content `c`. -/
def fsWrite (fs : FS) (p c : List Char) : FS :=
  (p, c) :: fs

/-- Embedding of `write_files`: write every entry at its normalized
destination path, in order. -/
def write_files (files : List FileEntry) (fs : FS) : FS :=
  files.foldl (fun acc f => fsWrite acc (destPath f.path) f.content) fs

/-- Split a path into `/`-separated components (Python
`path.split("/")`). -/
def splitSlash : List Char → List (List Char)
  | [] => [[]]
  | c :: rest =>
    if c = '/' then [] :: splitSlash rest
    else
      match splitSlash rest with
      | s :: ss => (c :: s) :: ss
      | [] => [[c]]

/-- POSIX resolution of a relative path against the working root (no
symlinks): empty and `.` components are no-ops, `..` pops one directory,
and popping past the root yields `none`.  `none` therefore means the OS
resolves the path to a location outside the working root. -/
def resolveComps : List (List Char) → List (List Char) → Option (List (List Char))
  | stack, [] => some stack.reverse
  | stack, comp :: rest =>
    if comp = [] ∨ comp = ['.'] then resolveComps stack rest
    else if comp = ['.', '.'] then
      match stack with
      | [] => none
      | _ :: popped => resolveComps popped rest
    else resolveComps (comp :: stack) rest

/-- Resolution of a whole relative path string against the working root. -/
def resolvePath (p : List Char) : Option (List (List Char)) :=
  resolveComps [] (splitSlash p)

example : destPath ("./a.py".data) = ("a.py".data) := by decide
example : destPath (".gitignore".data) = ("gitignore".data) := by decide
example : resolvePath ("a/../../x".data) = none := by decide

/-! ## Default files safety net (`ensure_minimal_files`, main.py lines 179-228)

Each of the five scaffold files is written only when `os.path.exists`
reports it missing.  The dedented literal contents are reproduced
verbatim. -/

/-- Content written to `app/main.py` by `ensure_minimal_files`. -/
def minimalAppMain : List Char :=
  ("from fastapi import FastAPI\nfrom pydantic import BaseModel\napp = FastAPI()\n\nclass Task(BaseModel):\n    id: int\n    title: str\n    done: bool = False\n\nDB = \x7b\x7d\n@app.get(\"/health\") \ndef health(): return \x7b\"ok\": True\x7d\n@app.post(\"/tasks\")\ndef create_task(t: Task): DB[t.id] = t.model_dump(); return DB[t.id]\n@app.get(\"/tasks\")\ndef list_tasks(): return list(DB.values())\n".data)

/-- Content written to `requirements.txt` by `ensure_minimal_files`. -/
def minimalRequirements : List Char :=
  ("fastapi\nuvicorn[standard]\nSQLAlchemy\npsycopg2-binary\n".data)

/-- Content written to `Dockerfile` by `ensure_minimal_files`. -/
def minimalDockerfile : List Char :=
  ("FROM python:3.11-slim\nWORKDIR /app\nCOPY requirements.txt .\nRUN pip install -r requirements.txt\nCOPY . .\nEXPOSE 8000\nCMD [\"uvicorn\", \"app.main:app\", \"--host\", \"0.0.0.0\", \"--port\", \"8000\"]\n".data)

/-- Content written to `render.yaml` by `ensure_minimal_files`. -/
def minimalRenderYaml : List Char :=
  ("services:\n  - type: web\n    name: fastapi-task-manager\n    env: python\n    plan: free\n    buildCommand: pip install -r requirements.txt\n    startCommand: uvicorn app.main:app --host 0.0.0.0 --port 8000\n".data)

/-- Content written to `README.md` by `ensure_minimal_files`. -/
def minimalReadme : List Char :=
  ("# FastAPI Task Manager\n\nRun locally: uvicorn app.main:app --reload\n".data)

/-- The five fallback files of `ensure_minimal_files`, in source order. -/
def minimalDefaults : List (List Char × List Char) :=
  [ (("app/main.py".data), minimalAppMain),
    (("requirements.txt".data), minimalRequirements),
    (("Dockerfile".data), minimalDockerfile),
    (("render.yaml".data), minimalRenderYaml),
    (("README.md".data), minimalReadme) ]

/-- Write each `(path, content)` default only when the path is absent. -/
def ensureFiles : List (List Char × List Char) → FS → FS
  | [], fs => fs
  | d :: ds, fs =>
    ensureFiles ds (if (fsRead fs d.1).isSome then fs else fsWrite fs d.1 d.2)

/-- Embedding of `ensure_minimal_files` over the working tree. -/
def ensure_minimal_files (fs : FS) : FS :=
  ensureFiles minimalDefaults fs

/-- The materialization branch of `main` (main.py lines 256-261):
LLM-provided files go through `write_files`, an empty list falls back to
`ensure_minimal_files`. -/
def orchestrate_materialize (files : List FileEntry) (fs : FS) : FS :=
  if files.isEmpty then ensure_minimal_files fs else write_files files fs

/-! ## Env-file redaction (`create_env_example`, main.py lines 235-247)

The `.env` file is processed line by line (lines are embedded without
their trailing newline, which neither the `"=" in line` test nor the two
branches can observe).  Lines carrying `=` and not starting with `#` are
replaced by `KEY=YOUR_KEY_HERE` where `KEY` is everything before the
first `=`; other lines are copied stripped. -/

/-- Variable-line test: `"=" in line and not line.strip().startswith("#")`. -/
def isVarLine (line : List Char) : Bool :=
  strContains line ("=".data) ∧ ¬ ("#".data).isPrefixOf (pyStrip pyWs line)

/-- Python `line.split("=")[0]`: everything before the first `=`. -/
def keyOf (line : List Char) : List Char :=
  line.takeWhile (fun c => c ≠ '=')

/-- Redaction applied to one `.env` line. -/
def redactLine (line : List Char) : List Char :=
  if isVarLine line then keyOf line ++ ("=YOUR_".data) ++ keyOf line ++ ("_HERE".data)
  else pyStrip pyWs line

/-- Embedding of `create_env_example`: the content written to
`.env.example` from the logical lines of `.env`. -/
def create_env_example (lines : List (List Char)) : List Char :=
  (lines.map redactLine).intersperse ("\n".data) |>.flatten

example : create_env_example [("API_KEY=secret123".data), ("# comment".data)]
    = ("API_KEY=YOUR_API_KEY_HERE\n# comment".data) := by decide

/-! ## JSON values and `json.loads` (used by `generate_scaffold`)

`generate_scaffold` parses provider replies with the standard library's
`json.loads`.  The grammar below reproduces it on the fragment the
pipeline can exchange: objects (later duplicate keys shadow earlier ones
exactly as in Python dicts, so member lists keep source order), arrays,
strings with the full escape syntax, integer numerals, and the three
literals.  Two deliberate restrictions, both invisible to every theorem
and witness in this file: numerals with a fraction, exponent or redundant
leading zero are rejected rather than read as Python floats, and a `\u`
escape denoting a lone surrogate is rejected (Lean's `Char` cannot carry
it). -/

inductive Json where
  | null
  | bool (b : Bool)
  | num (n : Int)
  | str (s : List Char)
  | arr (elems : List Json)
  | obj (members : List (List Char × Json))

/-- JSON inter-token whitespace. -/
def jsonWs (c : Char) : Bool :=
  c = ' ' ∨ c = '\t' ∨ c = '\n' ∨ c = '\r'

/-- Skip inter-token whitespace. -/
def skipWs (cs : List Char) : List Char :=
  cs.dropWhile jsonWs

/-- Value of one hexadecimal digit. -/
def hexVal (c : Char) : Option Nat :=
  if '0' ≤ c ∧ c ≤ '9' then some (c.toNat - 48)
  else if 'a' ≤ c ∧ c ≤ 'f' then some (c.toNat - 87)
  else if 'A' ≤ c ∧ c ≤ 'F' then some (c.toNat - 55)
  else none

/-- Translation of the eight single-character string escapes. -/
def escMap (c : Char) : Option Char :=
  if c = '"' then some '"'
  else if c = '\\' then some '\\'
  else if c = '/' then some '/'
  else if c = 'b' then some (Char.ofNat 8)
  else if c = 'f' then some (Char.ofNat 12)
  else if c = 'n' then some '\n'
  else if c = 'r' then some '\r'
  else if c = 't' then some '\t'
  else none

/-- Decode one escape sequence after a backslash: the escaped character
and the remaining input.  A `\u` escape denoting a surrogate is
rejected. -/
def parseEsc : List Char → Option (Char × List Char)
  | [] => none
  | e :: rest =>
    match escMap e with
    | some d => some (d, rest)
    | none =>
      if e = 'u' then
        match rest with
        | h1 :: h2 :: h3 :: h4 :: rest2 =>
          match hexVal h1, hexVal h2, hexVal h3, hexVal h4 with
          | some a, some b, some c3, some d4 =>
            let n := 4096 * a + 256 * b + 16 * c3 + d4
            if n < 0xD800 ∨ 0xDFFF < n then some (Char.ofNat n, rest2) else none
          | _, _, _, _ => none
        | _ => none
      else none

/-- Worker for JSON string bodies: one fuel unit per decoded character.
Every step consumes at least one input character, so fuel equal to the
input length (as supplied by `parseStringBody`) can never run out before
the input does. -/
def parseStringGo : Nat → List Char → Option (List Char × List Char)
  | 0, _ => none
  | fuel + 1, cs =>
    match cs with
    | [] => none
    | c :: rest =>
      if c = '"' then some ([], rest)
      else if c = '\\' then
        match parseEsc rest with
        | some (d, rest2) => (parseStringGo fuel rest2).map (fun p => (d :: p.1, p.2))
        | none => none
      else if c.toNat < 0x20 then none
      else (parseStringGo fuel rest).map (fun p => (c :: p.1, p.2))

/-- Parse the body of a JSON string after the opening quote, returning
the decoded characters and the input after the closing quote. -/
def parseStringBody (cs : List Char) : Option (List Char × List Char) :=
  parseStringGo cs.length cs

/-- Fold decimal digits into a natural number. -/
def digitsToNat (ds : List Char) : Nat :=
  ds.foldl (fun a c => 10 * a + (c.toNat - 48)) 0

/-- Parse a JSON integer numeral (optional minus sign, digit run). -/
def parseNum (cs : List Char) : Option (Json × List Char) :=
  let signed := match cs with
    | '-' :: r => (true, r)
    | _ => (false, cs)
  let ds := signed.2.takeWhile Char.isDigit
  let rest := signed.2.dropWhile Char.isDigit
  if ds.isEmpty then none
  else
    let v : Int := Int.ofNat (digitsToNat ds)
    let result := some (Json.num (if signed.1 then -v else v), rest)
    match rest with
    | c :: _ => if c = '.' ∨ c = 'e' ∨ c = 'E' then none else result
    | [] => result

mutual

/-- Parse one JSON value (leading whitespace already skipped).  `fuel`
only bounds the nesting the parser will follow; every theorem below
instantiates it generously. -/
def parseVal : Nat → List Char → Option (Json × List Char)
  | 0, _ => none
  | fuel + 1, cs =>
    match cs with
    | [] => none
    | c :: rest =>
      if c = 'n' then
        if ("ull".data).isPrefixOf rest then some (Json.null, rest.drop 3) else none
      else if c = 't' then
        if ("rue".data).isPrefixOf rest then some (Json.bool true, rest.drop 3) else none
      else if c = 'f' then
        if ("alse".data).isPrefixOf rest then some (Json.bool false, rest.drop 4) else none
      else if c = '"' then
        match parseStringBody rest with
        | some (s, r) => some (Json.str s, r)
        | none => none
      else if c = '[' then
        match skipWs rest with
        | [] => none
        | d :: r =>
          if d = ']' then some (Json.arr [], r)
          else
            match parseArrElems fuel (d :: r) with
            | some (vs, r2) => some (Json.arr vs, r2)
            | none => none
      else if c = lbrace then
        match skipWs rest with
        | [] => none
        | d :: r =>
          if d = rbrace then some (Json.obj [], r)
          else
            match parseObjElems fuel (d :: r) with
            | some (ms, r2) => some (Json.obj ms, r2)
            | none => none
      else if c = '-' ∨ c.isDigit then parseNum cs
      else none

/-- Parse the non-empty element list of an array, consuming the closing
bracket. -/
def parseArrElems : Nat → List Char → Option (List Json × List Char)
  | 0, _ => none
  | fuel + 1, cs =>
    match parseVal fuel cs with
    | none => none
    | some (v, r1) =>
      match skipWs r1 with
      | [] => none
      | d :: r2 =>
        if d = ']' then some ([v], r2)
        else if d = ',' then
          match parseArrElems fuel (skipWs r2) with
          | some (vs, r3) => some (v :: vs, r3)
          | none => none
        else none

/-- Parse the non-empty member list of an object, consuming the closing
brace. -/
def parseObjElems : Nat → List Char → Option (List (List Char × Json) × List Char)
  | 0, _ => none
  | fuel + 1, cs =>
    match cs with
    | [] => none
    | c0 :: cs1 =>
      if c0 = '"' then
        match parseStringBody cs1 with
        | none => none
        | some (k, r1) =>
          match skipWs r1 with
          | [] => none
          | d :: r2 =>
            if d = ':' then
              match parseVal fuel (skipWs r2) with
              | none => none
              | some (v, r3) =>
                match skipWs r3 with
                | [] => none
                | e :: r4 =>
                  if e = ',' then
                    match parseObjElems fuel (skipWs r4) with
                    | some (ms, r5) => some ((k, v) :: ms, r5)
                    | none => none
                  else if e = rbrace then some ([(k, v)], r4)
                  else none
            else none
      else none

end

/-- Embedding of `json.loads`: parse a complete document, requiring only
trailing whitespace after the value. -/
def json_parse (cs : List Char) : Option Json :=
  let body := skipWs cs
  match parseVal (2 * body.length + 2) body with
  | some (j, r) => if skipWs r = [] then some j else none
  | none => none

example : json_parse ("  [1, \"a\", null] ".data)
    = some (Json.arr [Json.num 1, Json.str ("a".data), Json.null]) := rfl
example : json_parse ("\x7b\"plan\": \"x\", \"files\": []\x7d".data)
    = some (Json.obj [(("plan".data), Json.str ("x".data)),
                      (("files".data), Json.arr [])]) := rfl
example : json_parse ("not json".data) = none := rfl
example : json_parse ("\x7b\"a\": -12\x7d".data)
    = some (Json.obj [(("a".data), Json.num (-12))]) := rfl

/-! ## Spec-side JSON encoding of a scaffold reply

Claim C6 speaks of "encoding a (plan, files) object to JSON and running
it through `plan`".  The encoder below realizes that spec-side object: a
canonical JSON rendering (double-quoted strings with `\x22`, `\x5c` and
control characters escaped, no optional whitespace) of
`\x7b"plan": ..., "files": [\x7b"path": ..., "content": ...\x7d, ...]\x7d`. -/

/-- Hexadecimal digit character (lower case). -/
def hexDigitChar (n : Nat) : Char :=
  if n < 10 then Char.ofNat (48 + n) else Char.ofNat (87 + n)

/-- JSON string escaping of one character. -/
def jsonEscapeChar (c : Char) : List Char :=
  if c = '"' then ['\\', '"']
  else if c = '\\' then ['\\', '\\']
  else if c.toNat < 0x20 then
    ['\\', 'u', '0', '0', hexDigitChar (c.toNat / 16), hexDigitChar (c.toNat % 16)]
  else [c]

/-- JSON rendering of a string value. -/
def encodeStr (s : List Char) : List Char :=
  '"' :: (s.map jsonEscapeChar).flatten ++ ['"']

/-- JSON value for one file entry: `\x7b"path": p, "content": c\x7d`. -/
def fileJson (p c : List Char) : Json :=
  Json.obj [(("path".data), Json.str p), (("content".data), Json.str c)]

/-- Parsed value of a whole scaffold reply for a plan and a file list. -/
def scaffoldJson (plan : List Char) (files : List (List Char × List Char)) : Json :=
  Json.obj [(("plan".data), Json.str plan),
            (("files".data), Json.arr (files.map (fun f => fileJson f.1 f.2)))]

/-- JSON rendering of one file entry. -/
def encFile (p c : List Char) : List Char :=
  lbrace :: (encodeStr ("path".data) ++ ':' :: encodeStr p ++
    ',' :: encodeStr ("content".data) ++ ':' :: encodeStr c ++ [rbrace])

/-- JSON rendering of a comma-separated file list. -/
def encFiles : List (List Char × List Char) → List Char
  | [] => []
  | [f] => encFile f.1 f.2
  | f :: rest => encFile f.1 f.2 ++ ',' :: encFiles rest

/-- Interior of the scaffold object (between the outer braces). -/
def scaffoldBody (plan : List Char) (files : List (List Char × List Char)) : List Char :=
  encodeStr ("plan".data) ++ ':' :: encodeStr plan ++
    ',' :: encodeStr ("files".data) ++ ':' :: '[' :: encFiles files ++ [']']

/-- JSON rendering of a whole scaffold reply. -/
def encodeScaffold (plan : List Char) (files : List (List Char × List Char)) : List Char :=
  lbrace :: (scaffoldBody plan files ++ [rbrace])

example : json_parse (encodeScaffold ("x".data) [(("a.py".data), ("print(1)".data))])
    = some (scaffoldJson ("x".data) [(("a.py".data), ("print(1)".data))]) := rfl

/-! ## ScaffoldPlanner (`generate_scaffold`, main.py lines 67-89)

`call_llm` is the ProviderClient: a free-text reply for a prompt,
embedded as the explicit function parameter `provider` (a per-run oracle
mapping each issued prompt to the reply received).  `generate_scaffold`
builds the planning prompt, strips whitespace and backquote fences from
the first reply, parses it, and on failure issues exactly one repair
prompt whose reply is parsed with no stripping and no fallback.  The
embedding also returns the list of prompts issued, in order, so the
number and content of provider calls is part of the observable result. -/

/-- The module-level `PLAN_PROMPT` literal. -/
def PLAN_PROMPT : List Char :=
  ("\nYou are an AI software architect. Given the project spec below, return a JSON object with:\n- plan: short bullet list of steps\n- files: array of \x7bpath, content\x7d to create a minimal, runnable app\nProject spec:\n".data)

/-- The rules block appended after the spec in the first prompt. -/
def PLAN_RULES : List Char :=
  ("\nRules:\n- Use FastAPI + Uvicorn, include requirements.txt\n- Include a simple PostgreSQL integration using SQLAlchemy (env-driven URI)\n- Include Dockerfile and render.yaml (Render Blueprint) for web service\n- Include a README.md with run and deploy instructions\n- Keep code minimal but runnable; no placeholders like “TODO”\n- Return ONLY JSON (no markdown) with keys \x7b \"plan\": string, \"files\": [ ... ] \x7d\n".data)

/-- First prompt: `PLAN_PROMPT + "\n" + spec + rules`. -/
def planPrompt (spec : List Char) : List Char :=
  PLAN_PROMPT ++ '\n' :: (spec ++ PLAN_RULES)

/-- Repair prompt: `"Return strict JSON only. " + PLAN_PROMPT + "\n" + spec`. -/
def repairPrompt (spec : List Char) : List Char :=
  ("Return strict JSON only. ".data) ++ PLAN_PROMPT ++ '\n' :: spec

/-- The reply cleanup `plan_raw.strip().strip("\x60").strip()`. -/
def stripReply (r : List Char) : List Char :=
  pyStrip pyWs (pyStrip (fun c => c = btick) (pyStrip pyWs r))

/-- Abstract error for an unparseable scaffold (the uncaught
`json.JSONDecodeError` the spec names `PlanParseError`). -/
inductive PlanError where
  | planParse

/-- Embedding of `generate_scaffold`: the prompts issued and either the
parsed reply or the fatal parse error. -/
def generate_scaffold (provider : List Char → List Char) (spec : List Char) :
    List (List Char) × Except PlanError Json :=
  let p1 := planPrompt spec
  match json_parse (stripReply (provider p1)) with
  | some j => ([p1], Except.ok j)
  | none =>
    let p2 := repairPrompt spec
    match json_parse (provider p2) with
    | some j => ([p1, p2], Except.ok j)
    | none => ([p1, p2], Except.error PlanError.planParse)

/-! ## RepoPublisher: repo creation (`create_github_repo`, main.py lines 103-110)

The `http` helper raises `RuntimeError(f"HTTP \x7bstatus\x7d \x7burl\x7d\n\x7bbody\x7d")` on any
status `>= 400`; `create_github_repo` retries nothing, but when the
stringified error contains `"403"` it logs and returns a synthesized
`html_url` payload instead.  The single HTTP call becomes the explicit
parameter `result` (its reply, or the raised error text). -/

/-- The message of the `RuntimeError` raised by `http` for a failed call. -/
def httpErrMsg (status : Nat) (url body : List Char) : List Char :=
  ("HTTP ".data) ++ (Nat.repr status).data ++ ' ' :: url ++ '\n' :: body

/-- Synthesized fallback payload `\x7b"html_url": "https://github.com/owner/name"\x7d`. -/
def synthRepo (owner name : List Char) : Json :=
  Json.obj [(("html_url".data),
    Json.str (("https://github.com/".data) ++ owner ++ '/' :: name))]

/-- Embedding of `create_github_repo`, parametric in the outcome of the
create-repository HTTP call. -/
def create_github_repo (result : Except (List Char) Json) (owner name : List Char) :
    Except (List Char) Json :=
  match result with
  | Except.ok j => Except.ok j
  | Except.error msg =>
    if strContains msg ("403".data) then Except.ok (synthRepo owner name)
    else Except.error msg

/-! ## DeploymentTrigger (`poll_render_deploy`, main.py lines 160-176)

The poll loop issues a GET every 5 seconds while elapsed time stays
under `timeout_s`; the k-th iteration therefore runs at elapsed time
`5 * k`.  The status endpoint becomes the explicit parameter `resp`
(the JSON each successive GET returns, already shaped).  The embedding
returns the number of GETs issued together with the returned value, so
"returns immediately" is observable. -/

structure RenderService where
  dashboardUrl : Option (List Char)
  serviceUrl : Option (List Char)

structure RenderResp where
  status : Option (List Char)
  services : List RenderService

/-- Python truthiness of an optional string field. -/
def truthyStr : Option (List Char) → Bool
  | none => false
  | some s => ¬ s.isEmpty

/-- URL collection for a success response: for each service append its
`dashboardUrl` and then its `serviceDetails.url`, when truthy. -/
def renderUrls (d : RenderResp) : List (List Char) :=
  d.services.foldr
    (fun s acc =>
      (if truthyStr s.dashboardUrl then [s.dashboardUrl.getD []] else []) ++
      (if truthyStr s.serviceUrl then [s.serviceUrl.getD []] else []) ++ acc)
    []

/-- The `urls or [...]` fallback for a success response. -/
def renderUrlsOr (d : RenderResp) : List (List Char) :=
  if (renderUrls d).isEmpty then [("(Render deployed; check dashboard)".data)]
  else renderUrls d

/-- Success-class statuses: `("live", "succeeded")`. -/
def isSuccessStatus (st : Option (List Char)) : Bool :=
  st = some ("live".data) ∨ st = some ("succeeded".data)

/-- Failure-class statuses: `("failed", "canceled", "deactivated")`. -/
def isFailureStatus (st : Option (List Char)) : Bool :=
  st = some ("failed".data) ∨ st = some ("canceled".data) ∨ st = some ("deactivated".data)

/-- Placeholder returned on a failure-class status. -/
def renderFailedMsg : List Char :=
  ("(Render deploy failed; check dashboard)".data)

/-- Placeholder returned when the timeout elapses. -/
def renderTimeoutMsg : List Char :=
  ("(Timed out waiting for Render)".data)

/-- The polling loop from iteration `k` on: number of further GETs
issued, and the value returned. -/
def pollGo (resp : Nat → RenderResp) (timeout_s : Nat) (k : Nat) : Nat × List (List Char) :=
  if h : 5 * k < timeout_s then
    let d := resp k
    if isSuccessStatus d.status then (k + 1, renderUrlsOr d)
    else if isFailureStatus d.status then (k + 1, [renderFailedMsg])
    else pollGo resp timeout_s (k + 1)
  else (k, [renderTimeoutMsg])
termination_by timeout_s - 5 * k
decreasing_by omega

/-- Embedding of `poll_render_deploy`: GET count and returned value. -/
def poll_render_deploy (resp : Nat → RenderResp) (timeout_s : Nat) : Nat × List (List Char) :=
  pollGo resp timeout_s 0

/-! ## Helper lemmas -/

theorem dropWhile_head_not (p : Char → Bool) :
    ∀ (l : List Char) (ch : Char), (l.dropWhile p).head? = some ch → p ch = false := by
  intro l
  induction l with
  | nil => intro ch h; simp at h
  | cons c rest ih =>
    intro ch h
    by_cases hc : p c
    · rw [List.dropWhile_cons_of_pos hc] at h
      exact ih ch h
    · rw [List.dropWhile_cons_of_neg hc] at h
      simp only [List.head?_cons, Option.some.injEq] at h
      subst h
      exact Bool.eq_false_iff.mpr hc

theorem resolveComps_isSome :
    ∀ (comps : List (List Char)) (stack : List (List Char)),
      (∀ c ∈ comps, c ≠ ['.', '.']) → (resolveComps stack comps).isSome := by
  intro comps
  induction comps with
  | nil => intro stack _; simp [resolveComps]
  | cons c rest ih =>
    intro stack h
    have hc : c ≠ ['.', '.'] := h c (List.mem_cons_self c rest)
    have hrest : ∀ x ∈ rest, x ≠ ['.', '.'] := fun x hx => h x (List.mem_cons_of_mem c hx)
    by_cases h1 : c = [] ∨ c = ['.']
    · simp only [resolveComps, if_pos h1]
      exact ih stack hrest
    · simp only [resolveComps, if_neg h1, if_neg hc]
      exact ih (c :: stack) hrest

theorem strContains_append_mid (pre t post : List Char) :
    strContains (pre ++ (t ++ post)) t = true := by
  rw [strContains, List.any_eq_true]
  refine ⟨t ++ post, ?_, ?_⟩
  · rw [List.mem_tails]
    exact ⟨pre, rfl⟩
  · rw [List.isPrefixOf_iff_prefix]
    exact List.prefix_append t post

/-! ## Claim C10 -/

/-- Claim C10: `write_files` strips ALL leading `.` and `/` characters of
an entry's path as a character-set strip (the whole leading run of dots
and slashes is removed, not just one `./` prefix), so an entry named
`.gitignore` is stored under `gitignore` and an entry named `.env` under
`env`. -/
theorem claim_C10_lstrip_charset :
    (∀ p, destPath p = p.dropWhile (fun c => c = '.' ∨ c = '/')) ∧
    destPath (".gitignore".data) = ("gitignore".data) ∧
    destPath (".env".data) = ("env".data) ∧
    destPath ("..//.foo".data) = ("foo".data) ∧
    (∀ fs content,
      fsRead (write_files [⟨(".gitignore".data), content⟩] fs) ("gitignore".data)
        = some content) ∧
    (∀ fs content,
      fsRead (write_files [⟨(".env".data), content⟩] fs) ("env".data) = some content) := by
  refine ⟨fun p => rfl, by decide, by decide, by decide, ?_, ?_⟩
  · intro fs content
    show fsRead ((("gitignore".data), content) :: fs) ("gitignore".data) = some content
    rw [fsRead, if_pos rfl]
  · intro fs content
    show fsRead ((("env".data), content) :: fs) ("env".data) = some content
    rw [fsRead, if_pos rfl]

/-! ## Claim C2 (corrected) -/

/-- Claim C2, counterexample: the entry path `a/../../x` is left
untouched by the `lstrip("./")` normalization (its leading character is
`a`), is written under that very name, and resolves to a location
OUTSIDE the working root (`resolvePath` = `none`), refuting "no entry —
including paths containing `..` components — causes a write outside the
working root". -/
theorem claim_C2_counterexample :
    destPath ("a/../../x".data) = ("a/../../x".data) ∧
    resolvePath ("a/../../x".data) = none ∧
    write_files [⟨("a/../../x".data), ("boom".data)⟩] []
      = [(("a/../../x".data), ("boom".data))] :=
  ⟨by decide, by decide, by decide⟩

/-- Claim C2, amended: the normalized destination path is always
relative — its first character is never `/` (nor `.`), so an absolute
path is impossible — and any normalized path containing no `..`
component resolves to a location inside the working root; paths with an
interior `..` component, however, can escape (see the counterexample). -/
theorem claim_C2_amended : ∀ (entry : FileEntry),
    (∀ ch, (destPath entry.path).head? = some ch → ch ≠ '/' ∧ ch ≠ '.') ∧
    ((∀ comp ∈ splitSlash (destPath entry.path), comp ≠ ['.', '.']) →
      (resolvePath (destPath entry.path)).isSome) := by
  intro entry
  constructor
  · intro ch h
    have := dropWhile_head_not _ _ _ h
    simp only [decide_eq_false_iff_not, not_or] at this
    exact ⟨this.2, this.1⟩
  · intro h
    exact resolveComps_isSome _ [] h

/-- Claim C2, amended, witness at the spec's own example entry
`./a.py`. -/
theorem claim_C2_amended_witness :
    (∀ ch, (destPath (("./a.py".data))).head? = some ch → ch ≠ '/' ∧ ch ≠ '.') ∧
    (resolvePath (destPath (("./a.py".data)))).isSome :=
  ⟨(claim_C2_amended ⟨("./a.py".data), []⟩).1,
   (claim_C2_amended ⟨("./a.py".data), []⟩).2 (by decide)⟩

/-! ## Claim C5 (corrected) -/

/-- Claim C5, amended: `create_repo` returns the provider response on
success; a failure whose error text contains the substring `403` — which
is the case for every forbidden (HTTP 403) failure, whose message starts
`HTTP 403 ...` — degrades to the synthesized
`https://github.com/owner/name` payload; a failure whose text does not
contain `403` propagates.  (The original claim's "any other failure
propagates as fatal" fails: the `403` test is a substring match over the
whole stringified error, see the counterexample.) -/
theorem claim_C5_amended :
    (∀ j owner name, create_github_repo (Except.ok j) owner name = Except.ok j) ∧
    (∀ url body owner name,
      create_github_repo (Except.error (httpErrMsg 403 url body)) owner name
        = Except.ok (synthRepo owner name)) ∧
    (∀ msg owner name, strContains msg ("403".data) = false →
      create_github_repo (Except.error msg) owner name = Except.error msg) := by
  refine ⟨fun j owner name => rfl, ?_, ?_⟩
  · intro url body owner name
    have h : strContains (httpErrMsg 403 url body) ("403".data) = true := by
      show strContains (("HTTP ".data) ++ ((Nat.repr 403).data ++ (' ' :: (url ++ '\n' :: body))))
          ("403".data) = true
      exact strContains_append_mid ("HTTP ".data) ("403".data) (' ' :: (url ++ '\n' :: body))
    rw [create_github_repo, if_pos h]
  · intro msg owner name h
    rw [create_github_repo, if_neg (by simp [h])]

/-- Claim C5, amended, witness: a concrete success reply passes through,
a concrete 403 failure synthesizes the URL, and a concrete clean 500
failure propagates. -/
theorem claim_C5_amended_witness :
    create_github_repo (Except.ok (Json.str ("ok".data))) ("o".data) ("r".data)
      = Except.ok (Json.str ("ok".data)) ∧
    create_github_repo
        (Except.error (httpErrMsg 403 ("https://api.github.com/user/repos".data) ("denied".data)))
        ("octo".data) ("demo".data)
      = Except.ok (synthRepo ("octo".data) ("demo".data)) ∧
    create_github_repo (Except.error ("HTTP 500 server error".data)) ("o".data) ("r".data)
      = Except.error ("HTTP 500 server error".data) :=
  ⟨claim_C5_amended.1 _ _ _,
   claim_C5_amended.2.1 _ _ _ _,
   claim_C5_amended.2.2 _ _ _ (by decide)⟩

/-- Claim C5, counterexample: a NON-forbidden failure (HTTP 500) whose
response body happens to contain the digits `403` does not propagate —
`create_github_repo` swallows it and returns the synthesized URL,
refuting "any other failure of the call propagates as fatal". -/
theorem claim_C5_counterexample :
    create_github_repo
        (Except.error (httpErrMsg 500 ("https://api.github.com/user/repos".data)
          ("rate limit trace 4031".data)))
        ("octo".data) ("demo".data)
      = Except.ok (synthRepo ("octo".data) ("demo".data)) ∧
    ∀ e, create_github_repo
        (Except.error (httpErrMsg 500 ("https://api.github.com/user/repos".data)
          ("rate limit trace 4031".data)))
        ("octo".data) ("demo".data)
      ≠ Except.error e := by
  constructor
  · rfl
  · intro e h
    rw [show create_github_repo
        (Except.error (httpErrMsg 500 ("https://api.github.com/user/repos".data)
          ("rate limit trace 4031".data)))
        ("octo".data) ("demo".data)
      = Except.ok (synthRepo ("octo".data) ("demo".data)) from rfl] at h
    exact Except.noConfusion h

/-! ## Claim C7 -/

/-- Agreement relation on `.env` lines: both are variable lines with the
same key (values may differ arbitrarily), or both are non-variable lines
with identical content. -/
def linesAgree (l1 l2 : List Char) : Prop :=
  (isVarLine l1 = true ∧ isVarLine l2 = true ∧ keyOf l1 = keyOf l2) ∨
  (isVarLine l1 = false ∧ isVarLine l2 = false ∧ l1 = l2)

theorem redactLine_agree {l1 l2 : List Char} (h : linesAgree l1 l2) :
    redactLine l1 = redactLine l2 := by
  rcases h with ⟨h1, h2, hk⟩ | ⟨h1, h2, he⟩
  · rw [redactLine, redactLine, if_pos h1, if_pos h2, hk]
  · rw [he]

/-- Claim C7: the generated `.env.example` masks each variable's value
with a placeholder computed only from the variable's key, and therefore
two local environment files with identical keys and line structure but
different values produce identical example files — no secret value flows
into the output. -/
theorem claim_C7_redaction_noninterference :
    (∀ line, isVarLine line = true →
      redactLine line
        = keyOf line ++ ("=YOUR_".data) ++ keyOf line ++ ("_HERE".data)) ∧
    (∀ lines1 lines2, List.Forall₂ linesAgree lines1 lines2 →
      create_env_example lines1 = create_env_example lines2) := by
  constructor
  · intro line h
    rw [redactLine, if_pos h]
  · intro lines1 lines2 h
    have hmap : lines1.map redactLine = lines2.map redactLine := by
      induction h with
      | nil => rfl
      | cons hag _ ih =>
        simp only [List.map_cons, ih, List.cons.injEq, and_true]
        exact redactLine_agree hag
    rw [create_env_example, create_env_example, hmap]

/-- Claim C7, witness: two environment files with equal keys and comment
lines but different secret values yield byte-identical example files. -/
theorem claim_C7_witness :
    create_env_example [("API_KEY=realsecret".data), ("# db settings".data),
        ("DB_URL=postgres://u:p@h/db".data)]
      = create_env_example [("API_KEY=hunter2".data), ("# db settings".data),
        ("DB_URL=postgres://other".data)] :=
  claim_C7_redaction_noninterference.2 _ _
    (List.Forall₂.cons (Or.inl ⟨by decide, by decide, by decide⟩)
      (List.Forall₂.cons (Or.inr ⟨by decide, by decide, rfl⟩)
        (List.Forall₂.cons (Or.inl ⟨by decide, by decide, by decide⟩)
          List.Forall₂.nil)))

/-! ## Claim C8 -/

theorem ensureFiles_preserves :
    ∀ (ds : List (List Char × List Char)) (fs : FS) (p : List Char) (v : List Char),
      fsRead fs p = some v → fsRead (ensureFiles ds fs) p = some v := by
  intro ds
  induction ds with
  | nil => intro fs p v h; exact h
  | cons d ds ih =>
    intro fs p v h
    rw [ensureFiles]
    by_cases hd : (fsRead fs d.1).isSome
    · rw [if_pos hd]; exact ih fs p v h
    · rw [if_neg hd]
      refine ih _ p v ?_
      have hne : d.1 ≠ p := by
        intro he
        rw [he, h] at hd
        exact hd rfl
      show fsRead ((d.1, d.2) :: fs) p = some v
      rw [fsRead, if_neg hne]
      exact h

theorem ensureFiles_creates :
    ∀ (ds : List (List Char × List Char)) (fs : FS) (p : List Char) (c : List Char),
      fsRead ds p = some c → fsRead fs p = none →
      fsRead (ensureFiles ds fs) p = some c := by
  intro ds
  induction ds with
  | nil => intro fs p c h; simp [fsRead] at h
  | cons d ds ih =>
    intro fs p c h habs
    rw [fsRead] at h
    rw [ensureFiles]
    by_cases he : d.1 = p
    · rw [if_pos he] at h
      have hmiss : (fsRead fs d.1).isSome = false := by
        rw [he, habs]; rfl
      rw [if_neg (by simp [hmiss])]
      refine ensureFiles_preserves ds _ p d.2 ?_ |>.trans (by rw [← h])
      show fsRead ((d.1, d.2) :: fs) p = some d.2
      rw [fsRead, if_pos he]
    · rw [if_neg he] at h
      by_cases hd : (fsRead fs d.1).isSome
      · rw [if_pos hd]; exact ih fs p c h habs
      · rw [if_neg hd]
        refine ih _ p c h ?_
        show fsRead ((d.1, d.2) :: fs) p = none
        rw [fsRead, if_neg he]
        exact habs

theorem ensureFiles_frame :
    ∀ (ds : List (List Char × List Char)) (fs : FS) (q : List Char),
      q ∉ ds.map Prod.fst → fsRead (ensureFiles ds fs) q = fsRead fs q := by
  intro ds
  induction ds with
  | nil => intro fs q _; rfl
  | cons d ds ih =>
    intro fs q hq
    rw [List.map_cons, List.mem_cons] at hq
    push_neg at hq
    rw [ensureFiles]
    by_cases hd : (fsRead fs d.1).isSome
    · rw [if_pos hd]; exact ih fs q hq.2
    · rw [if_neg hd]
      rw [ih _ q hq.2]
      show fsRead ((d.1, d.2) :: fs) q = fsRead fs q
      rw [fsRead, if_neg (fun he => hq.1 he.symm)]

/-- Claim C8: on an empty planner file list the Orchestrator falls back
to `ensure_minimal_files`, which writes each of the five fixed scaffold
files (`app/main.py`, `requirements.txt`, `Dockerfile`, `render.yaml`,
`README.md`, with their fixed contents) only when the path does not
already exist; every path already present — and every path outside the
five — keeps its existing content (frame condition). -/
theorem claim_C8_minimal_fallback : ∀ fs : FS,
    orchestrate_materialize [] fs = ensure_minimal_files fs ∧
    (∀ p v, fsRead fs p = some v → fsRead (ensure_minimal_files fs) p = some v) ∧
    (∀ p c, fsRead minimalDefaults p = some c → fsRead fs p = none →
      fsRead (ensure_minimal_files fs) p = some c) ∧
    (∀ q, q ∉ minimalDefaults.map Prod.fst →
      fsRead (ensure_minimal_files fs) q = fsRead fs q) := by
  intro fs
  exact ⟨rfl,
    fun p v h => ensureFiles_preserves minimalDefaults fs p v h,
    fun p c h1 h2 => ensureFiles_creates minimalDefaults fs p c h1 h2,
    fun q hq => ensureFiles_frame minimalDefaults fs q hq⟩

/-- Claim C8, witness: starting from a tree already holding a customized
`README.md`, the fallback keeps that `README.md` byte-identical, creates
the missing `Dockerfile` with its fixed content, and leaves the foreign
path `notes.txt` alone. -/
theorem claim_C8_witness :
    fsRead (ensure_minimal_files [(("README.md".data), ("my readme".data))])
        ("README.md".data) = some ("my readme".data) ∧
    fsRead (ensure_minimal_files [(("README.md".data), ("my readme".data))])
        ("Dockerfile".data) = some minimalDockerfile ∧
    fsRead (ensure_minimal_files [(("README.md".data), ("my readme".data))])
        ("notes.txt".data) = fsRead [(("README.md".data), ("my readme".data))] ("notes.txt".data) :=
  ⟨(claim_C8_minimal_fallback _).2.1 _ _ rfl,
   (claim_C8_minimal_fallback _).2.2.1 _ _ rfl rfl,
   (claim_C8_minimal_fallback _).2.2.2 _ (by decide)⟩

/-! ## Claims C1 (corrected) and C9 -/

/-- Concrete slice of the standard content-type table used by
`mimetypes.guess_type` for the counterexample files: the standard map
sends a path ending in `.png` to `image/png` and leaves the other
extensions used below unmapped. -/
def pngGuess : List Char → Option (List Char) :=
  fun rel => if strEndsWith (pyLower rel) (".png".data) then some ("image/png".data) else none

/-- Bytes of a classic personal-access-token credential (pure ASCII). -/
def ghpSecretBytes : List Nat :=
  (("ghp_" ++ String.mk (List.replicate 36 'A')).data).map Char.toNat

/-- Decoded text of `ghpSecretBytes`. -/
def ghpSecretText : List Char :=
  ("ghp_" ++ String.mk (List.replicate 36 'A')).data

/-- Inversion of the per-file push decision: every upload is a
name-cleared file shipped either through the binary branch (raw bytes,
scanner never consulted) or through the text branch after the scanner
cleared its decoding. -/
theorem pushFileAction_upload_inv :
    ∀ (guess : List Char → Option (List Char)) (f : PushFile) (payload : List Char) (b : Bool),
    pushFileAction guess f = PushAction.upload payload b →
    sensitiveName f.rel = false ∧
      (isBinaryMime (guess f.rel) = true ∧ payload = b64encode f.bytes ∧ b = true ∨
       isBinaryMime (guess f.rel) = false ∧
         ∃ d, utf8Decode f.bytes = some d ∧ contains_secret d = false ∧
           payload = b64encode (utf8Encode d) ∧ b = false) := by
  intro guess f payload b h
  rw [pushFileAction] at h
  by_cases hs : sensitiveName f.rel
  · rw [if_pos hs] at h
    exact absurd h (by simp)
  · rw [if_neg hs] at h
    refine ⟨Bool.eq_false_iff.mpr hs, ?_⟩
    by_cases hb : isBinaryMime (guess f.rel)
    · rw [if_pos hb] at h
      have hinj := PushAction.upload.inj h
      exact Or.inl ⟨hb, hinj.1.symm, hinj.2.symm⟩
    · rw [if_neg hb] at h
      cases hdec : utf8Decode f.bytes with
      | none =>
        rw [hdec] at h
        exact absurd h (by simp)
      | some d =>
        rw [hdec] at h
        simp only at h
        by_cases hsec : contains_secret d
        · rw [if_pos hsec] at h
          exact absurd h (by simp)
        · rw [if_neg hsec] at h
          have hinj := PushAction.upload.inj h
          exact Or.inr ⟨Bool.eq_false_iff.mpr hb,
            d, rfl, Bool.eq_false_iff.mpr hsec, hinj.1.symm, hinj.2.symm⟩

/-- Claim C1, counterexample: the file `logo.png` passes the
sensitive-name filter, its UTF-8 decoding exists and the secret scanner
flags it — yet `push_repo_from_disk` still issues an upload request for
it (with the base64 of its raw bytes), because its guessed content type
`image/png` routes it down the binary branch where the scanner is never
consulted.  This refutes "push_tree ... never transmits a file for which
the secret scanner returns true on its UTF-8-decoded content". -/
theorem claim_C1_counterexample :
    utf8Decode ghpSecretBytes = some ghpSecretText ∧
    contains_secret ghpSecretText = true ∧
    sensitiveName ("logo.png".data) = false ∧
    pushUploads pngGuess [⟨("logo.png".data), ghpSecretBytes⟩]
      = [(("logo.png".data), b64encode ghpSecretBytes)] :=
  ⟨by decide, by decide, by decide, by decide⟩

/-- Claim C1, amended: every upload request issued by
`push_repo_from_disk` is for a file that passed the sensitive-name
filter (its relative path neither case-insensitively ends in `.env` nor
contains `token`), and is either classified binary by its guessed
content type — in which case the secret scanner is NOT applied, see the
counterexample — or was decoded as UTF-8 text that the secret scanner
cleared. -/
theorem claim_C1_amended :
    ∀ (guess : List Char → Option (List Char)) (files : List PushFile)
      (rel payload : List Char),
    (rel, payload) ∈ pushUploads guess files →
    sensitiveName rel = false ∧
    ∃ f, f ∈ files ∧ f.rel = rel ∧
      (isBinaryMime (guess rel) = true ∧ payload = b64encode f.bytes ∨
       isBinaryMime (guess rel) = false ∧
         ∃ d, utf8Decode f.bytes = some d ∧ contains_secret d = false ∧
           payload = b64encode (utf8Encode d)) := by
  intro guess files rel payload hmem
  rw [pushUploads, List.mem_filterMap] at hmem
  obtain ⟨⟨rel0, act⟩, hmem0, hact⟩ := hmem
  rw [push_repo_from_disk, List.mem_map] at hmem0
  obtain ⟨f, hf, hpair⟩ := hmem0
  have hrel0 : rel0 = f.rel := (congrArg Prod.fst hpair).symm
  have hact0 : act = pushFileAction guess f := (congrArg Prod.snd hpair).symm
  subst hrel0
  subst hact0
  cases ha : pushFileAction guess f with
  | skipSensitiveName => rw [ha] at hact; exact absurd hact (by simp)
  | skipNonUtf8 => rw [ha] at hact; exact absurd hact (by simp)
  | skipSecret => rw [ha] at hact; exact absurd hact (by simp)
  | upload pl b =>
    rw [ha] at hact
    simp only [Option.some.injEq, Prod.mk.injEq] at hact
    obtain ⟨hrel, hpay⟩ := hact
    subst hrel
    obtain ⟨hclear, hcase⟩ := pushFileAction_upload_inv guess f pl b ha
    refine ⟨hclear, f, hf, rfl, ?_⟩
    rcases hcase with ⟨hb, hpl, _⟩ | ⟨hb, d, hdec, hsec, hpl, _⟩
    · exact Or.inl ⟨hb, hpay ▸ hpl⟩
    · exact Or.inr ⟨hb, d, hdec, hsec, hpay ▸ hpl⟩

/-- Claim C1, amended, witness: the only upload of a one-file tree is
accounted for by the text branch with a scanner-cleared decoding. -/
theorem claim_C1_amended_witness :
    sensitiveName ("a.txt".data) = false ∧
    ∃ f, f ∈ [PushFile.mk ("a.txt".data) [104, 105]] ∧ f.rel = ("a.txt".data) ∧
      (isBinaryMime ((fun _ => none) ("a.txt".data)) = true ∧
        b64encode (utf8Encode ("hi".data)) = b64encode f.bytes ∨
       isBinaryMime ((fun _ => none) ("a.txt".data)) = false ∧
         ∃ d, utf8Decode f.bytes = some d ∧ contains_secret d = false ∧
           b64encode (utf8Encode ("hi".data)) = b64encode (utf8Encode d)) :=
  claim_C1_amended (fun _ => none) [PushFile.mk ("a.txt".data) [104, 105]]
    ("a.txt".data) (b64encode (utf8Encode ("hi".data))) (by decide)

/-- Claim C9: a walked file that survives the sensitive-name filter and
whose guessed content type classifies it as binary (a non-empty type not
starting with `text`) is always uploaded, carrying the base64 encoding
of its raw bytes — the UTF-8 decoding and the secret scanner are never
consulted on this branch, whatever the bytes contain. -/
theorem claim_C9_binary_bypasses_scanner :
    ∀ (guess : List Char → Option (List Char)) (f : PushFile),
      sensitiveName f.rel = false →
      isBinaryMime (guess f.rel) = true →
      pushFileAction guess f = PushAction.upload (b64encode f.bytes) true := by
  intro guess f hs hb
  rw [pushFileAction, if_neg (by simp [hs]), if_pos hb]

/-- Claim C9, witness: a `.png` whose bytes decode to a vendor-prefixed
secret (`sk-...`) is nonetheless uploaded as base64 of those bytes. -/
theorem claim_C9_witness :
    pushFileAction pngGuess
        ⟨("photo.png".data), (("sk-" ++ String.mk (List.replicate 32 'B')).data).map Char.toNat⟩
      = PushAction.upload
          (b64encode ((("sk-" ++ String.mk (List.replicate 32 'B')).data).map Char.toNat)) true :=
  claim_C9_binary_bypasses_scanner pngGuess _ (by decide) (by decide)

/-! ## Claim C4 -/

theorem pollGo_eq (resp : Nat → RenderResp) (t k : Nat) :
    pollGo resp t k =
      if 5 * k < t then
        if isSuccessStatus (resp k).status then (k + 1, renderUrlsOr (resp k))
        else if isFailureStatus (resp k).status then (k + 1, [renderFailedMsg])
        else pollGo resp t (k + 1)
      else (k, [renderTimeoutMsg]) := by
  rw [pollGo]
  split <;> rfl

theorem pollGo_step_nonterminal (resp : Nat → RenderResp) (t k : Nat)
    (h5 : 5 * k < t)
    (hns : isSuccessStatus (resp k).status = false)
    (hnf : isFailureStatus (resp k).status = false) :
    pollGo resp t k = pollGo resp t (k + 1) := by
  rw [pollGo_eq, if_pos h5, hns, hnf]
  simp

theorem pollGo_skipTo (resp : Nat → RenderResp) (t K : Nat) (h5 : 5 * K < t)
    (hj : ∀ j, j < K →
      isSuccessStatus (resp j).status = false ∧ isFailureStatus (resp j).status = false) :
    ∀ n i, i ≤ K → K - i ≤ n → pollGo resp t i = pollGo resp t K := by
  intro n
  induction n with
  | zero =>
    intro i hle hdiff
    have he : i = K := by omega
    rw [he]
  | succ n ih =>
    intro i hle hdiff
    by_cases he : i = K
    · rw [he]
    · have hlt : i < K := by omega
      have hn := hj i hlt
      rw [pollGo_step_nonterminal resp t i (by omega) hn.1 hn.2]
      exact ih (i + 1) (by omega) (by omega)

theorem pollGo_timeout_snd (resp : Nat → RenderResp) (t : Nat)
    (hp : ∀ j, 5 * j < t →
      isSuccessStatus (resp j).status = false ∧ isFailureStatus (resp j).status = false) :
    ∀ n i, t - 5 * i ≤ n → (pollGo resp t i).2 = [renderTimeoutMsg] := by
  intro n
  induction n with
  | zero =>
    intro i h
    rw [pollGo_eq, if_neg (by omega)]
  | succ n ih =>
    intro i h
    by_cases h5 : 5 * i < t
    · have hn := hp i h5
      rw [pollGo_step_nonterminal resp t i h5 hn.1 hn.2]
      exact ih (i + 1) (by omega)
    · rw [pollGo_eq, if_neg h5]

theorem failure_not_success {st : Option (List Char)} (h : isFailureStatus st = true) :
    isSuccessStatus st = false := by
  rw [isFailureStatus] at h
  rw [isSuccessStatus]
  simp only [decide_eq_true_eq] at h
  rcases h with h | h | h <;> subst h <;> decide

theorem pending_nonterminal {st : Option (List Char)}
    (h : st = some ("pending".data)) :
    isSuccessStatus st = false ∧ isFailureStatus st = false := by
  subst h
  exact ⟨by decide, by decide⟩

/-- Claim C4: the poll loop has exactly three outcomes.  (a) At the
first success-class status (`live`/`succeeded`, all earlier responses
non-terminal) it returns right away — after exactly `k + 1` GETs, not
waiting out the remaining budget — with every discovered service URL,
or the deployed-placeholder when none was found (`renderUrlsOr`).
(b) At a first failure-class status it likewise returns right away with
the failure placeholder as ordinary data (the embedding is a total
function — no exception path exists).  (c) When the status stays
`pending` for the whole budget, it returns the timeout placeholder. -/
theorem claim_C4_poll_trichotomy : ∀ (resp : Nat → RenderResp) (t k : Nat),
    (5 * k < t →
      (∀ j, j < k →
        isSuccessStatus (resp j).status = false ∧ isFailureStatus (resp j).status = false) →
      isSuccessStatus (resp k).status = true →
      poll_render_deploy resp t = (k + 1, renderUrlsOr (resp k))) ∧
    (5 * k < t →
      (∀ j, j < k →
        isSuccessStatus (resp j).status = false ∧ isFailureStatus (resp j).status = false) →
      isFailureStatus (resp k).status = true →
      poll_render_deploy resp t = (k + 1, [renderFailedMsg])) ∧
    ((∀ j, 5 * j < t → (resp j).status = some ("pending".data)) →
      (poll_render_deploy resp t).2 = [renderTimeoutMsg]) := by
  intro resp t k
  refine ⟨?_, ?_, ?_⟩
  · intro h5 hj hsucc
    rw [poll_render_deploy,
      pollGo_skipTo resp t k h5 hj k 0 (Nat.zero_le k) (by omega),
      pollGo_eq, if_pos h5, hsucc]
    simp
  · intro h5 hj hfail
    rw [poll_render_deploy,
      pollGo_skipTo resp t k h5 hj k 0 (Nat.zero_le k) (by omega),
      pollGo_eq, if_pos h5, hfail, failure_not_success hfail]
    simp
  · intro hp
    rw [poll_render_deploy]
    exact pollGo_timeout_snd resp t
      (fun j hj => pending_nonterminal (hp j hj)) (t - 0) 0 (by omega)

/-- Responses used by the C4 witness: pending once, then live with one
service URL. -/
def respLive : Nat → RenderResp :=
  fun j => if j = 0 then ⟨some ("pending".data), []⟩
    else ⟨some ("live".data), [⟨some ("https://dash".data), some ("https://app".data)⟩]⟩

/-- Responses used by the C4 witness: immediately failed. -/
def respFailed : Nat → RenderResp :=
  fun _ => ⟨some ("failed".data), []⟩

/-- Responses used by the C4 witness: forever pending. -/
def respPending : Nat → RenderResp :=
  fun _ => ⟨some ("pending".data), []⟩

/-- Claim C4, witness: a live status at the second poll returns after
two GETs with the discovered URLs; an immediately failed deploy returns
after one GET with the failure placeholder; a permanently pending deploy
returns the timeout placeholder. -/
theorem claim_C4_witness :
    poll_render_deploy respLive 600 = (2, renderUrlsOr (respLive 1)) ∧
    poll_render_deploy respFailed 600 = (1, [renderFailedMsg]) ∧
    (poll_render_deploy respPending 12).2 = [renderTimeoutMsg] :=
  ⟨(claim_C4_poll_trichotomy respLive 600 1).1 (by omega)
      (fun j hj => by
        have hj0 : j = 0 := by omega
        subst hj0
        exact ⟨by decide, by decide⟩)
      (by decide),
   (claim_C4_poll_trichotomy respFailed 600 0).2.1 (by omega)
      (fun j hj => absurd hj (by omega))
      (by decide),
   (claim_C4_poll_trichotomy respPending 12 0).2.2 (fun j _ => rfl)⟩

/-! ## Claim C3 -/

/-- Claim C3: when the first (whitespace- and fence-stripped) provider
reply fails to parse, `generate_scaffold` issues exactly one repair call
— the prompts go out as `[planPrompt spec, repairPrompt spec]`, where
the repair prompt is the stricter "Return strict JSON only." instruction
followed by the planning prompt and the original spec — and parses the
repair reply with no further fallback: a parseable repair reply is
returned as-is, and a malformed one makes the run fail with the fatal
`PlanError.planParse` (never an empty success result). -/
theorem claim_C3_single_repair :
    ∀ (provider : List Char → List Char) (spec : List Char),
    json_parse (stripReply (provider (planPrompt spec))) = none →
    (generate_scaffold provider spec).1 = [planPrompt spec, repairPrompt spec] ∧
    (∀ j, json_parse (provider (repairPrompt spec)) = some j →
      (generate_scaffold provider spec).2 = Except.ok j) ∧
    (json_parse (provider (repairPrompt spec)) = none →
      (generate_scaffold provider spec).2 = Except.error PlanError.planParse) := by
  intro provider spec h1
  refine ⟨?_, ?_, ?_⟩
  · cases hr : json_parse (provider (repairPrompt spec)) with
    | none => simp only [generate_scaffold, h1, hr]
    | some j => simp only [generate_scaffold, h1, hr]
  · intro j h2
    simp only [generate_scaffold, h1, h2]
  · intro h2
    simp only [generate_scaffold, h1, h2]

/-- Claim C3, witness: a provider that always answers unparseable text
makes the planner issue exactly the two prompts and fail fatally. -/
theorem claim_C3_witness :
    (generate_scaffold (fun _ => ("oops".data)) ("todo app".data)).1
      = [planPrompt ("todo app".data), repairPrompt ("todo app".data)] ∧
    (generate_scaffold (fun _ => ("oops".data)) ("todo app".data)).2
      = Except.error PlanError.planParse :=
  ⟨(claim_C3_single_repair (fun _ => ("oops".data)) ("todo app".data) rfl).1,
   (claim_C3_single_repair (fun _ => ("oops".data)) ("todo app".data) rfl).2.2 rfl⟩

/-! ## Claim C6: parser/encoder round-trip lemmas -/

theorem hexVal_hexDigitChar : ∀ m, m < 16 → hexVal (hexDigitChar m) = some m := by
  intro m hm
  interval_cases m <;> decide

theorem escList_length_le (s : List Char) :
    s.length ≤ ((s.map jsonEscapeChar).flatten).length := by
  induction s with
  | nil => simp
  | cons c s ih =>
    simp only [List.map_cons, List.flatten_cons, List.length_append, List.length_cons]
    have hc : 1 ≤ (jsonEscapeChar c).length := by
      rw [jsonEscapeChar]
      split
      · simp
      · split
        · simp
        · split <;> simp
    omega

theorem parseStringGo_escape_step (f : Nat) (c : Char) (cs : List Char) :
    parseStringGo (f + 1) (jsonEscapeChar c ++ cs)
      = (parseStringGo f cs).map (fun p => (c :: p.1, p.2)) := by
  by_cases hq : c = '"'
  · subst hq
    show parseStringGo (f + 1) ('\\' :: '"' :: cs) = _
    simp [parseStringGo, parseEsc, escMap]
  · by_cases hb : c = '\\'
    · subst hb
      show parseStringGo (f + 1) ('\\' :: '\\' :: cs) = _
      simp [parseStringGo, parseEsc, escMap]
    · by_cases hlt : c.toNat < 0x20
      · have hesc : jsonEscapeChar c
            = ['\\', 'u', '0', '0', hexDigitChar (c.toNat / 16), hexDigitChar (c.toNat % 16)] := by
          rw [jsonEscapeChar, if_neg hq, if_neg hb, if_pos hlt]
        rw [hesc]
        show parseStringGo (f + 1)
            ('\\' :: 'u' :: '0' :: '0' :: hexDigitChar (c.toNat / 16)
              :: hexDigitChar (c.toNat % 16) :: cs) = _
        have hu : parseEsc ('u' :: '0' :: '0' :: hexDigitChar (c.toNat / 16)
            :: hexDigitChar (c.toNat % 16) :: cs) = some (c, cs) := by
          simp only [parseEsc, show escMap 'u' = none from rfl]
          rw [if_pos trivial]
          rw [show hexVal '0' = some 0 from rfl,
            hexVal_hexDigitChar (c.toNat / 16) (by omega),
            hexVal_hexDigitChar (c.toNat % 16) (by omega)]
          simp only
          rw [if_pos (Or.inl (show 4096 * 0 + 256 * 0 + 16 * (c.toNat / 16) + c.toNat % 16
            < 0xD800 by omega))]
          rw [show 4096 * 0 + 256 * 0 + 16 * (c.toNat / 16) + c.toNat % 16 = c.toNat by omega]
          rw [Char.ofNat_toNat]
        simp [parseStringGo, hu]
      · have hesc : jsonEscapeChar c = [c] := by
          rw [jsonEscapeChar, if_neg hq, if_neg hb, if_neg hlt]
        rw [hesc]
        show parseStringGo (f + 1) (c :: cs) = _
        simp only [parseStringGo]
        rw [if_neg hq, if_neg hb, if_neg hlt]

theorem parseStringGo_roundtrip (s : List Char) :
    ∀ (f : Nat) (cs : List Char),
      parseStringGo (f + s.length + 1) ((s.map jsonEscapeChar).flatten ++ ('"' :: cs))
        = some (s, cs) := by
  induction s with
  | nil =>
    intro f cs
    simp [parseStringGo]
  | cons c s ih =>
    intro f cs
    simp only [List.map_cons, List.flatten_cons, List.append_assoc, List.length_cons]
    rw [show f + (s.length + 1) + 1 = (f + s.length + 1) + 1 by omega]
    rw [parseStringGo_escape_step, ih]
    rfl

theorem parseStringBody_roundtrip (s cs : List Char) :
    parseStringBody ((s.map jsonEscapeChar).flatten ++ ('"' :: cs)) = some (s, cs) := by
  rw [parseStringBody]
  have hlen : ((s.map jsonEscapeChar).flatten ++ ('"' :: cs)).length
      = (s.map jsonEscapeChar).flatten.length + cs.length + 1 := by
    simp [List.length_append]
    omega
  have hge := escList_length_le s
  obtain ⟨f, hf⟩ : ∃ f, ((s.map jsonEscapeChar).flatten ++ ('"' :: cs)).length
      = f + s.length + 1 := ⟨(s.map jsonEscapeChar).flatten.length + cs.length - s.length,
        by omega⟩
  rw [hf, parseStringGo_roundtrip]

theorem encodeStr_append (s cs : List Char) :
    encodeStr s ++ cs = '"' :: ((s.map jsonEscapeChar).flatten ++ ('"' :: cs)) := by
  simp [encodeStr]

theorem parseVal_str (f : Nat) (s cs : List Char) :
    parseVal (f + 1) (encodeStr s ++ cs) = some (Json.str s, cs) := by
  rw [encodeStr_append]
  simp only [parseVal]
  rw [parseStringBody_roundtrip]
  simp

theorem skipWs_cons_of_neg {d : Char} (h : jsonWs d = false) (X : List Char) :
    skipWs (d :: X) = d :: X := by
  rw [skipWs, List.dropWhile_cons_of_neg (by simp [h])]

theorem skipWs_encodeStr (s X : List Char) : skipWs (encodeStr s ++ X) = encodeStr s ++ X := by
  rw [encodeStr_append, skipWs_cons_of_neg (by decide)]

theorem parseObjElems_last_str (g : Nat) (k v cs : List Char) :
    parseObjElems (g + 2) (encodeStr k ++ ':' :: (encodeStr v ++ rbrace :: cs))
      = some ([(k, Json.str v)], cs) := by
  rw [encodeStr_append]
  simp only [parseObjElems]
  rw [parseStringBody_roundtrip]
  simp only [skipWs_cons_of_neg (show jsonWs ':' = false from rfl),
    skipWs_cons_of_neg (show jsonWs rbrace = false from rfl), skipWs_encodeStr,
    parseVal_str]
  simp [eq_false (by decide : ¬ (rbrace = ','))]

theorem parseObjElems_cons_str (g : Nat) (k v k2 X : List Char) :
    parseObjElems (g + 2) (encodeStr k ++ ':' :: (encodeStr v ++ ',' :: (encodeStr k2 ++ X)))
      = (parseObjElems (g + 1) (encodeStr k2 ++ X)).map
          (fun pr => ((k, Json.str v) :: pr.1, pr.2)) := by
  conv_lhs => rw [encodeStr_append k]
  rw [parseObjElems]
  simp only [parseStringBody_roundtrip,
    skipWs_cons_of_neg (show jsonWs ':' = false from rfl),
    skipWs_cons_of_neg (show jsonWs ',' = false from rfl),
    skipWs_encodeStr, parseVal_str]
  cases h : parseObjElems (g + 1) (encodeStr k2 ++ X) with
  | none => simp [h]
  | some pr => simp [h]

theorem parseVal_file (g : Nat) (p c cs : List Char) :
    parseVal (g + 4) (encFile p c ++ cs) = some (fileJson p c, cs) := by
  have hshape : encFile p c ++ cs
      = lbrace :: (encodeStr ("path".data) ++ ':' :: (encodeStr p ++ ',' ::
          (encodeStr ("content".data) ++ ':' :: (encodeStr c ++ rbrace :: cs)))) := by
    simp [encFile, List.append_assoc]
  rw [hshape, parseVal]
  rw [if_neg (by decide : ¬ lbrace = 'n'), if_neg (by decide : ¬ lbrace = 't'),
    if_neg (by decide : ¬ lbrace = 'f'), if_neg (by decide : ¬ lbrace = '"'),
    if_neg (by decide : ¬ lbrace = '['), if_pos (rfl : lbrace = lbrace)]
  rw [skipWs_encodeStr, encodeStr_append ("path".data)]
  simp only [if_neg (by decide : ¬ ('"' : Char) = rbrace)]
  rw [← encodeStr_append ("path".data)]
  rw [show g + 3 = (g + 1) + 2 from rfl, parseObjElems_cons_str,
    parseObjElems_last_str]
  rfl

theorem encFile_head (p c : List Char) : ∃ B, encFile p c = lbrace :: B :=
  ⟨_, rfl⟩

theorem encFiles_cons_head (f0 : List Char × List Char) (tl : List (List Char × List Char))
    (X : List Char) : ∃ Y, encFiles (f0 :: tl) ++ X = lbrace :: Y := by
  obtain ⟨B, hB⟩ := encFile_head f0.1 f0.2
  cases tl with
  | nil => exact ⟨B ++ X, by simp [encFiles, hB]⟩
  | cons f1 r => exact ⟨B ++ ',' :: (encFiles (f1 :: r) ++ X), by simp [encFiles, hB]⟩

theorem skipWs_encFiles (f0 : List Char × List Char) (tl : List (List Char × List Char))
    (X : List Char) :
    skipWs (encFiles (f0 :: tl) ++ X) = encFiles (f0 :: tl) ++ X := by
  obtain ⟨Y, hY⟩ := encFiles_cons_head f0 tl X
  rw [hY, skipWs_cons_of_neg (show jsonWs lbrace = false from rfl)]

theorem parseArrElems_files :
    ∀ (files : List (List Char × List Char)), files ≠ [] →
    ∀ (g : Nat) (cs : List Char),
      parseArrElems (g + 6 * files.length) (encFiles files ++ (']' :: cs))
        = some (files.map (fun fc => fileJson fc.1 fc.2), cs) := by
  intro files
  induction files with
  | nil => intro h; exact absurd rfl h
  | cons f0 tl ih =>
    intro _ g cs
    cases tl with
    | nil =>
      rw [show ([f0] : List (List Char × List Char)).length = 1 from rfl]
      rw [show g + 6 * 1 = ((g + 1) + 4) + 1 from by omega]
      rw [show encFiles [f0] = encFile f0.1 f0.2 from rfl]
      rw [parseArrElems, parseVal_file]
      simp [skipWs_cons_of_neg (show jsonWs ']' = false from rfl)]
    | cons f1 rest =>
      have hne : (f1 :: rest) ≠ [] := List.cons_ne_nil f1 rest
      have hshape : encFiles (f0 :: f1 :: rest) ++ (']' :: cs)
          = encFile f0.1 f0.2 ++ (',' :: (encFiles (f1 :: rest) ++ (']' :: cs))) := by
        simp [encFiles, List.append_assoc]
      rw [hshape, List.length_cons]
      rw [show g + 6 * ((f1 :: rest).length + 1)
          = (((g + 1) + 6 * (f1 :: rest).length) + 4) + 1 from by ring]
      rw [parseArrElems, parseVal_file]
      simp only [skipWs_cons_of_neg (show jsonWs ',' = false from rfl), skipWs_encFiles]
      rw [show ((g + 1) + 6 * (f1 :: rest).length) + 4
          = (g + 5) + 6 * (f1 :: rest).length from by ring]
      rw [ih hne (g + 5) cs]
      simp [eq_false (by decide : ¬ ((',' : Char) = ']'))]

theorem parseObjElems_last_arr (g : Nat) (k : List Char)
    (files : List (List Char × List Char)) (cs : List Char) :
    parseObjElems (g + 6 * files.length + 3)
        (encodeStr k ++ ':' :: ('[' :: (encFiles files ++ (']' :: (rbrace :: cs)))))
      = some ([(k, Json.arr (files.map (fun fc => fileJson fc.1 fc.2)))], cs) := by
  rw [encodeStr_append]
  rw [show g + 6 * files.length + 3 = (g + 6 * files.length + 2) + 1 from rfl]
  rw [parseObjElems]
  simp only [parseStringBody_roundtrip,
    skipWs_cons_of_neg (show jsonWs ':' = false from rfl),
    skipWs_cons_of_neg (show jsonWs '[' = false from rfl)]
  rw [show g + 6 * files.length + 2 = (g + 6 * files.length + 1) + 1 from rfl]
  rw [parseVal]
  rw [if_neg (by decide : ¬ ('[' : Char) = 'n'), if_neg (by decide : ¬ ('[' : Char) = 't'),
    if_neg (by decide : ¬ ('[' : Char) = 'f'), if_neg (by decide : ¬ ('[' : Char) = '"'),
    if_pos (rfl : ('[' : Char) = '[')]
  cases files with
  | nil =>
    simp only [encFiles, List.nil_append,
      skipWs_cons_of_neg (show jsonWs ']' = false from rfl)]
    simp [skipWs_cons_of_neg (show jsonWs rbrace = false from rfl),
      eq_false (by decide : ¬ (rbrace = ','))]
  | cons f0 tl =>
    obtain ⟨Y, hY⟩ := encFiles_cons_head f0 tl (']' :: rbrace :: cs)
    rw [show encFiles (f0 :: tl) ++ (']' :: (rbrace :: cs))
        = encFiles (f0 :: tl) ++ (']' :: rbrace :: cs) from rfl]
    rw [hY]
    rw [skipWs_cons_of_neg (show jsonWs lbrace = false from rfl)]
    simp only [if_neg (by decide : ¬ lbrace = ']')]
    rw [← hY]
    rw [show g + 6 * (f0 :: tl).length + 1 = (g + 1) + 6 * (f0 :: tl).length from by ring]
    rw [parseArrElems_files (f0 :: tl) (List.cons_ne_nil f0 tl) (g + 1) (rbrace :: cs)]
    simp [skipWs_cons_of_neg (show jsonWs rbrace = false from rfl),
      eq_false (by decide : ¬ (rbrace = ','))]

theorem parseVal_scaffold (f : Nat) (plan : List Char)
    (files : List (List Char × List Char)) (cs : List Char) :
    parseVal (f + 6 * files.length + 5) (encodeScaffold plan files ++ cs)
      = some (scaffoldJson plan files, cs) := by
  have hshape : encodeScaffold plan files ++ cs
      = lbrace :: (encodeStr ("plan".data) ++ ':' :: (encodeStr plan ++ ',' ::
          (encodeStr ("files".data) ++ ':' ::
            ('[' :: (encFiles files ++ (']' :: (rbrace :: cs))))))) := by
    simp [encodeScaffold, scaffoldBody, List.append_assoc]
  rw [hshape]
  rw [show f + 6 * files.length + 5 = (f + 6 * files.length + 4) + 1 from rfl]
  rw [parseVal]
  rw [if_neg (by decide : ¬ lbrace = 'n'), if_neg (by decide : ¬ lbrace = 't'),
    if_neg (by decide : ¬ lbrace = 'f'), if_neg (by decide : ¬ lbrace = '"'),
    if_neg (by decide : ¬ lbrace = '['), if_pos (rfl : lbrace = lbrace)]
  rw [skipWs_encodeStr, encodeStr_append ("plan".data)]
  simp only [if_neg (by decide : ¬ ('"' : Char) = rbrace)]
  rw [← encodeStr_append ("plan".data)]
  rw [show f + 6 * files.length + 4 = (f + 6 * files.length + 2) + 2 from rfl]
  rw [parseObjElems_cons_str]
  rw [show (f + 6 * files.length + 2) + 1 = f + 6 * files.length + 3 from rfl]
  rw [parseObjElems_last_arr]
  rfl

theorem encodeStr_length_ge (s : List Char) : 2 ≤ (encodeStr s).length := by
  simp [encodeStr]

theorem encFile_length_ge (p c : List Char) : 3 ≤ (encFile p c).length := by
  have h1 := encodeStr_length_ge p
  have h2 := encodeStr_length_ge c
  simp only [encFile, List.length_cons, List.length_append]
  omega

theorem encFiles_length_ge :
    ∀ files : List (List Char × List Char), 3 * files.length ≤ (encFiles files).length := by
  intro files
  induction files with
  | nil => simp [encFiles]
  | cons f0 tl ih =>
    cases tl with
    | nil =>
      have := encFile_length_ge f0.1 f0.2
      simp only [encFiles, List.length_singleton]
      omega
    | cons f1 rest =>
      have h0 := encFile_length_ge f0.1 f0.2
      simp only [encFiles, List.length_append, List.length_cons] at ih ⊢
      omega

theorem scaffold_length_bound (plan : List Char) (files : List (List Char × List Char)) :
    6 * files.length + 5 ≤ 2 * (encodeScaffold plan files).length + 2 := by
  have hp := encodeStr_length_ge plan
  have hf := encFiles_length_ge files
  simp only [encodeScaffold, scaffoldBody, List.length_cons, List.length_append,
    List.length_singleton]
  omega

theorem skipWs_encodeScaffold (plan : List Char) (files : List (List Char × List Char)) :
    skipWs (encodeScaffold plan files) = encodeScaffold plan files := by
  simp only [encodeScaffold]
  rw [skipWs_cons_of_neg (show jsonWs lbrace = false from rfl)]

theorem json_parse_encodeScaffold (plan : List Char) (files : List (List Char × List Char)) :
    json_parse (encodeScaffold plan files) = some (scaffoldJson plan files) := by
  simp only [json_parse, skipWs_encodeScaffold]
  obtain ⟨f, hf⟩ : ∃ f, 2 * (encodeScaffold plan files).length + 2
      = f + 6 * files.length + 5 :=
    ⟨2 * (encodeScaffold plan files).length + 2 - (6 * files.length + 5),
      by have := scaffold_length_bound plan files; omega⟩
  rw [hf]
  conv_lhs => rw [← List.append_nil (encodeScaffold plan files)]
  rw [parseVal_scaffold]
  simp [skipWs]

theorem pyStrip_edge_id (p : Char → Bool) (a b : Char) (mid : List Char)
    (ha : p a = false) (hb : p b = false) :
    pyStrip p ((a :: mid) ++ [b]) = (a :: mid) ++ [b] := by
  rw [pyStrip, List.cons_append, List.dropWhile_cons_of_neg (by simp [ha]), ← List.cons_append,
    dropEndWhile, List.reverse_append]
  simp only [List.reverse_cons, List.reverse_nil, List.nil_append, List.singleton_append]
  rw [List.dropWhile_cons_of_neg (by simp [hb])]
  simp

theorem stripReply_encodeScaffold (plan : List Char) (files : List (List Char × List Char)) :
    stripReply (encodeScaffold plan files) = encodeScaffold plan files := by
  have hsh : encodeScaffold plan files = (lbrace :: scaffoldBody plan files) ++ [rbrace] := by
    simp [encodeScaffold]
  rw [stripReply, hsh]
  rw [pyStrip_edge_id _ _ _ _ (by decide) (by decide)]
  rw [pyStrip_edge_id _ _ _ _ (by decide) (by decide)]
  rw [pyStrip_edge_id _ _ _ _ (by decide) (by decide)]

/-- Claim C6: when the stripped provider reply parses as JSON,
`generate_scaffold` returns exactly the parsed value after the single
provider call; and the round-trip holds — JSON-encoding a scaffold
object with a `plan` string and a `files` list of `(path, content)`
entries and running it through the planner's parser yields exactly the
original data, so a provider replying with such an encoding makes
`generate_scaffold` return the original `(plan, files)` object. -/
theorem claim_C6_parse_roundtrip :
    (∀ (provider : List Char → List Char) (spec : List Char) (j : Json),
      json_parse (stripReply (provider (planPrompt spec))) = some j →
      generate_scaffold provider spec = ([planPrompt spec], Except.ok j)) ∧
    (∀ plan files, json_parse (encodeScaffold plan files) = some (scaffoldJson plan files)) ∧
    (∀ (provider : List Char → List Char) (spec plan : List Char)
        (files : List (List Char × List Char)),
      provider (planPrompt spec) = encodeScaffold plan files →
      generate_scaffold provider spec
        = ([planPrompt spec], Except.ok (scaffoldJson plan files))) := by
  refine ⟨?_, json_parse_encodeScaffold, ?_⟩
  · intro provider spec j h
    simp only [generate_scaffold, h]
  · intro provider spec plan files h
    simp only [generate_scaffold, h, stripReply_encodeScaffold, json_parse_encodeScaffold]

/-- Claim C6, witness: a provider answering the bare object text returns
its parse, and a provider answering the encoded spec example
`plan = "x"`, `files = [(a.py, print(1))]` makes the planner return
exactly that data. -/
theorem claim_C6_witness :
    generate_scaffold (fun _ => ("\x7b\x7d".data)) ("spec".data)
      = ([planPrompt ("spec".data)], Except.ok (Json.obj [])) ∧
    generate_scaffold (fun _ => encodeScaffold ("x".data) [(("a.py".data), ("print(1)".data))])
        ("todo app".data)
      = ([planPrompt ("todo app".data)],
         Except.ok (scaffoldJson ("x".data) [(("a.py".data), ("print(1)".data))])) :=
  ⟨claim_C6_parse_roundtrip.1 _ _ (Json.obj []) rfl,
   claim_C6_parse_roundtrip.2.2 _ _ _ _ rfl⟩
